import Mathlib

/-!
Verification of the Guitar Pro → annotated ABC transcoder
(`process_guitar_pro` in `src/streamlit_app.py`).

The Python source is shallowly embedded below: every pure helper becomes a
Lean function, the song model becomes Lean structures, the Python floats of
the duration arithmetic become exact rationals (`ℚ`), Python `int` becomes
`ℤ`, Python `%` and `//` on integers become `Int.emod` / `Int.ediv` (both
match Python's semantics for a positive modulus/divisor), and the Python
exception raised by an out-of-range dict lookup in the key tables becomes
`Option.none` propagated to the top-level result.  Python string operations
(`in`, `.lower()`, `.strip()`, indexing) are embedded at the character-list
level, which matches Python's character semantics and keeps every
definition kernel-computable.
-/

namespace MusicChat

/-! ## Python string primitives -/

/-- Python `pat in hay` (substring containment). -/
def pyInStr (pat hay : String) : Bool := decide (pat.toList <:+: hay.toList)

/-- Python `s.lower()` (ASCII case mapping, as in the source's inputs). -/
def pyLower (s : String) : String := String.mk (s.toList.map Char.toLower)

/-- Python `s.strip()`: remove leading and trailing whitespace. -/
def pyStrip (s : String) : String :=
  String.mk (((s.toList.dropWhile Char.isWhitespace).reverse.dropWhile
    Char.isWhitespace).reverse)

/-! ## Duration encoder (src lines 299-312, 342-353, 403-414: one inlined
formula, embedded once). -/

/-- `length_multiplier = 16 / dur if dur != 0 else 16`, then `*= 1.5` when
dotted. -/
def length_multiplier (dur : ℕ) (dotted : Bool) : ℚ :=
  let m : ℚ := if dur ≠ 0 then 16 / (dur : ℚ) else 16
  if dotted then m * (3 / 2) else m

/-- The length suffix appended to a token: empty for multiplier 1,
`/int(1/m)` below 1, `int(m)` above 1 (`int` truncates; the multiplier is
positive, so truncation is the floor). -/
def durationSuffix (dur : ℕ) (dotted : Bool) : String :=
  let m := length_multiplier dur dotted
  if m = 1 then ""
  else if m < 1 then "/" ++ toString ⌊1 / m⌋
  else toString ⌊m⌋

/-! ## Pitch encoder (src lines 104-122, `midi_to_abc`). -/

def note_names : List String :=
  ["C", "^C", "D", "^D", "E", "F", "^F", "G", "^G", "A", "^A", "B"]

/-- Apostrophe character (ABC octave-up mark). -/
def apoChar : Char := Char.ofNat 39

def midi_to_abc (pitch : ℤ) : String :=
  let name : List Char := (note_names.getD (pitch.emod 12).toNat "").toList
  let octave : ℤ := pitch.ediv 12 - 1
  -- `name.startswith('^')`
  let sharp : Bool := name.head? = some '^'
  -- `name[1] if name.startswith('^') else name[0]`
  let letter : Char := if sharp then name.getD 1 'C' else name.getD 0 'C'
  let abc_letter : List Char :=
    if 4 ≤ octave then
      let l : Char := if octave = 4 then letter.toUpper else letter.toLower
      if 5 < octave then l :: List.replicate (octave - 5).toNat apoChar else [l]
    else
      letter.toUpper :: List.replicate (4 - octave).toNat ','
  String.mk (if sharp then '^' :: abc_letter else abc_letter)

/-! ## Chord recognizer (src lines 124-173, `identify_chord`). -/

/-- Root/tuning pitch-class spellings (sharps), src lines 133 and 207: one
12-entry table (written here as two halves). -/
def name_map : List String :=
  ["C", "C#", "D", "D#", "E", "F"] ++ ["F#", "G", "G#", "A", "A#", "B"]

def identify_chord (pitches : List ℤ) : Option String :=
  let pcs : List ℤ := ((pitches.map (fun p => p.emod 12)).dedup).insertionSort (· ≤ ·)
  match pcs with
  | [] => none
  | root :: _ =>
    let rel : List ℤ :=
      ((pcs.map (fun pc => (pc - root).emod 12)).insertionSort (· ≤ ·))
    let root_name := name_map.getD root.toNat ""
    let intervals := rel.drop 1
    if rel.length = 2 then
      if rel.getD 1 0 = 7 then some (root_name ++ "5") else none
    else if rel.length = 3 then
      if intervals = [4, 7] then some (root_name ++ "maj")
      else if intervals = [3, 7] then some (root_name ++ "min")
      else if intervals = [3, 6] then some (root_name ++ "dim")
      else if intervals = [4, 8] then some (root_name ++ "aug")
      else if intervals = [2, 7] then some (root_name ++ "sus2")
      else if intervals = [5, 7] then some (root_name ++ "sus4")
      else none
    else if rel.length = 4 then
      if intervals = [4, 7, 10] then some (root_name ++ "7")
      else if intervals = [3, 7, 10] then some (root_name ++ "min7")
      else if intervals = [4, 7, 11] then some (root_name ++ "maj7")
      else if intervals = [3, 6, 10] then some (root_name ++ "min7b5")
      else if intervals = [3, 6, 9] then some (root_name ++ "dim7")
      else if intervals = [4, 7, 9] then some (root_name ++ "6")
      else if intervals = [3, 7, 9] then some (root_name ++ "min6")
      else none
    else none

/-! ## Key resolution (src lines 14-45).  `key_info` is either absent
(`none`), a numeric `(sharps, isMinor)` pair (the tuple and `.value` paths
of the source collapse to the same data), or a symbolic name string. -/

inductive KeyInfo where
  | pair (sharps : ℤ) (isMinor : Bool)
  | name (str : String)

/-- `major_map` dict (src line 41-42); lookup of a missing key models the
Python `KeyError` as `none`. -/
def major_map_pairs : List (ℤ × String) :=
  [(0, "C"), (1, "G"), (2, "D"), (3, "A"), (4, "E"), (5, "B"), (6, "F#"), (7, "C#"),
   (-1, "F"), (-2, "Bb"), (-3, "Eb"), (-4, "Ab"), (-5, "Db"), (-6, "Gb"), (-7, "Cb")]

/-- `minor_map` dict (src line 43-44). -/
def minor_map_pairs : List (ℤ × String) :=
  [(0, "Am"), (1, "Em"), (2, "Bm"), (3, "F#m"), (4, "C#m"), (5, "G#m"), (6, "D#m"),
   (7, "A#m"), (-1, "Dm"), (-2, "Gm"), (-3, "Cm"), (-4, "Fm"), (-5, "Bbm"),
   (-6, "Ebm"), (-7, "Abm")]

def major_map (s : ℤ) : Option String := (major_map_pairs.find? (fun p => p.1 = s)).map (·.2)

def minor_map (s : ℤ) : Option String := (minor_map_pairs.find? (fun p => p.1 = s)).map (·.2)

/-- The note-name scan list of the string path (src line 35), in source
order. -/
def keyNoteNames : List String :=
  ["C", "G", "D", "A", "E", "B", "F#", "C#", "F", "Bb", "Eb", "Ab", "Db", "Gb", "Cb"]

/-- The `for noteName in [...]` loop (src lines 34-38): the first list entry
that occurs as a substring of the name wins; `key_text` stays at its `"C"`
default when none matches. -/
def scanKeyName (nm : String) : String :=
  (keyNoteNames.find? (fun nn => pyInStr nn nm)).getD "C"

/-- `key_text` after src lines 20-45.  `none` signals the `KeyError` a
sharps count outside `[-7, 7]` raises in the source. -/
def resolveKeyText : Option KeyInfo → Option String
  | Option.none => some "C"
  | some (.pair sh mi) => if mi then minor_map sh else major_map sh
  | some (.name nm) => some (scanKeyName nm)

/-- `is_minor` as computed on the same paths (src lines 24, 29, 33);
on the string path it is `1 if "Minor" in name else 0`. -/
def resolveKeyMinor : Option KeyInfo → Bool
  | Option.none => false
  | some (.pair _ mi) => mi
  | some (.name nm) => pyInStr "Minor" nm

example : identify_chord [60, 64, 67] = some "Cmaj" := by decide
example : identify_chord [60, 63, 67] = some "Cmin" := by decide
example : identify_chord [60, 67] = some "C5" := by decide
example : identify_chord [60, 61, 67] = none := by decide
example : midi_to_abc 61 = "^C" := by decide
example : midi_to_abc 48 = "C," := by decide
example : midi_to_abc 72 = "c" := by decide
example : midi_to_abc 96 = String.mk ['c', apoChar, apoChar] := by decide
example : length_multiplier 8 true = 3 := by norm_num [length_multiplier]
example : durationSuffix 4 false = "4" := by
  have h : length_multiplier 4 false = 4 := by norm_num [length_multiplier]
  rw [durationSuffix, h]
  norm_num
  decide
example : durationSuffix 16 true = "1" := by
  have h : length_multiplier 16 true = 3 / 2 := by norm_num [length_multiplier]
  rw [durationSuffix, h]
  norm_num
  decide

/-! ## Song model (§3 of the spec; fields the transcoder reads).
`Option` marks fields the source probes for presence or truthiness. -/

structure GPDuration where
  value : ℕ
  isDotted : Bool
deriving DecidableEq

structure NoteEffectData where
  bend : Bool            -- `bend is not None`
  hammer : Bool
  isHammerOn : Bool      -- `getattr(..., 'isHammerOn', True)`
  harmonic : Bool        -- `harmonic is not None`
  slides : Bool          -- truthiness of the slides list
  vibrato : Bool
  palmMute : Bool
  staccato : Bool
  tapping : Bool
  tremoloPicking : Bool
deriving DecidableEq

structure BeatEffectData where
  tremoloBar : Bool
  slide : Bool
  vibrato : Bool
deriving DecidableEq

structure GPNote where
  string : ℕ             -- 1-based string index
  value : ℤ              -- fret offset
  effect : Option NoteEffectData
deriving DecidableEq

structure GPBeat where
  duration : Option GPDuration
  notes : List GPNote
  effect : Option BeatEffectData
  text : Option String   -- beat-level text annotation value
deriving DecidableEq

structure GPVoice where
  beats : List GPBeat
deriving DecidableEq

structure TimeSigData where
  numerator : ℤ
  denominatorValue : ℤ   -- `ts.denominator.value`
deriving DecidableEq

structure RepeatData where
  closings : ℕ
  close : Bool
  isOpen : Bool          -- models the source attribute named `open`
deriving DecidableEq

structure MeasureHeaderData where
  timeSignature : TimeSigData
  marker : Option String -- marker title when a marker object is present
  text : Option String
  direction : Option String
  annotText : Option String   -- models the source attribute named `annotation`
  comment : Option String
  repeatAlternative : ℕ       -- 0 = falsy
  repeatData : Option RepeatData  -- models the probed `repeat` attribute
deriving DecidableEq

structure MeasureData where
  header : MeasureHeaderData
  voices : List GPVoice
deriving DecidableEq

structure GPStringData where
  value : ℤ              -- open-string MIDI pitch
deriving DecidableEq

structure ChannelData where
  instrument : Option ℤ  -- MIDI program number; `None` possible
deriving DecidableEq

structure TrackData where
  name : String
  number : ℕ
  isPercussionTrack : Bool
  channel : ChannelData
  strings : List GPStringData
  description : String   -- getattr default ''
  comments : String      -- getattr default ''
  measures : List MeasureData
deriving DecidableEq

structure SongData where
  tempo : ℤ
  key : Option KeyInfo
  title : String         -- getattr default 'Untitled' applied by the parser
  artist : String
  album : String
  composer : String
  copyright : String
  lyrics : String        -- read at src line 61 but never used
  instructions : String
  notice : String
  subtitles : List String
  tracks : List TrackData

/-! ## Beat emission (src lines 297-416). -/

/-- Python list indexing used at `track.strings[note.string-1]`
(a negative index wraps from the end; the source's guard keeps the index in
range whenever `note.string ≥ 1`). -/
def pyIndex (l : List ℤ) (i : ℤ) : ℤ :=
  if 0 ≤ i then l.getD i.toNat 0 else l.getD (l.length - i.natAbs) 0

def durOf (o : Option GPDuration) : ℕ := (o.map (·.value)).getD 4

def dottedOf (o : Option GPDuration) : Bool := (o.map (·.isDotted)).getD false

/-- Rest token `z` + duration (src lines 299-312). -/
def restToken (o : Option GPDuration) : String :=
  "z" ++ durationSuffix (durOf o) (dottedOf o)

/-- Open-string pitch of a single note (src line 362): out-of-range string
index falls back to 0. -/
def noteOpenPitch (strs : List ℤ) (n : GPNote) : ℤ :=
  if (n.string : ℤ) ≤ (strs.length : ℤ) then pyIndex strs ((n.string : ℤ) - 1) else 0

def noteAbsPitch (strs : List ℤ) (n : GPNote) : ℤ := noteOpenPitch strs n + n.value

/-- Chord pitch collection (src lines 325-330): notes whose string index is
out of range are skipped. -/
def chordPitches (strs : List ℤ) (notes : List GPNote) : List ℤ :=
  notes.filterMap (fun n =>
    if (n.string : ℤ) ≤ (strs.length : ℤ) then
      some (pyIndex strs ((n.string : ℤ) - 1) + n.value)
    else none)

/-- Technique marker list for a single note (src lines 366-396), in source
check order, with the beat-level checks deduplicating against the list. -/
def noteEffectList (n : GPNote) (beatEff : Option BeatEffectData) : List String :=
  let effects : List String :=
    match n.effect with
    | Option.none => []
    | some e =>
      (if e.bend then ["b"] else []) ++
      (if e.hammer then [if e.isHammerOn then "ho" else "po"] else []) ++
      (if e.harmonic then ["h"] else []) ++
      (if e.slides then ["s"] else []) ++
      (if e.vibrato then ["v"] else []) ++
      (if e.palmMute then ["pm"] else []) ++
      (if e.staccato then ["st"] else []) ++
      (if e.tapping then ["t"] else []) ++
      (if e.tremoloPicking then ["tr"] else [])
  let effects :=
    match beatEff with
    | Option.none => effects
    | some be =>
      let effects :=
        if (be.tremoloBar || be.slide) && !(effects.contains "s") then effects ++ ["s"]
        else effects
      if be.vibrato && !(effects.contains "v") then effects ++ ["v"] else effects
  effects

/-- Single-note token (src lines 357-416): pitch, `(effect)` markers,
duration suffix. -/
def singleNoteToken (strs : List ℤ) (beat : GPBeat) (n : GPNote) : String :=
  let note_repr := midi_to_abc (noteAbsPitch strs n)
  let note_repr :=
    note_repr ++ String.join ((noteEffectList n beat.effect).map (fun e => "(" ++ e ++ ")"))
  note_repr ++ durationSuffix (durOf beat.duration) (dottedOf beat.duration)

/-- Chord token (src lines 323-355): recognized label in brackets, or the
individually encoded pitches sorted ascending, plus one duration suffix. -/
def chordToken (strs : List ℤ) (beat : GPBeat) : String :=
  let pitches := chordPitches strs beat.notes
  let chord_repr :=
    match identify_chord pitches with
    | some lbl => "[" ++ lbl ++ "]"
    | Option.none =>
      "[" ++ String.join ((pitches.insertionSort (· ≤ ·)).map midi_to_abc) ++ "]"
  chord_repr ++ durationSuffix (durOf beat.duration) (dottedOf beat.duration)

/-- Beat-level text annotation token (src lines 316-320): emitted only when
the stripped text is nonempty; the un-stripped text is quoted. -/
def beatAnnTokens (beat : GPBeat) : List String :=
  match beat.text with
  | Option.none => []
  | some tx => if pyStrip tx ≠ "" then ["\"(" ++ tx ++ ")\""] else []

/-- Tokens one beat contributes to `bar_content` (src lines 297-416). -/
def beatTokens (strs : List ℤ) (beat : GPBeat) : List String :=
  match beat.notes with
  | [] => [restToken beat.duration]
  | [n] => beatAnnTokens beat ++ [singleNoteToken strs beat n]
  | _ :: _ :: _ => beatAnnTokens beat ++ [chordToken strs beat]

/-! ## Measure emission (src lines 231-432). -/

/-- `[bar_content[i:i+16] for i in range(0, len(bar_content), 16)]`. -/
def chunks16 (l : List String) : List (List String) :=
  if l = [] then [] else l.take 16 :: chunks16 (l.drop 16)
termination_by l.length
decreasing_by
  rename_i h
  have : l.length ≠ 0 := fun h0 => h (List.length_eq_zero.mp h0)
  simp only [List.length_drop]
  omega

/-- Join each chunk with spaces; all but the last get the continuation mark,
the last the bar terminator (src lines 426-430). -/
def joinChunks : List (List String) → List String
  | [] => []
  | [c] => [String.intercalate " " c ++ " |"]
  | c :: c' :: rest => (String.intercalate " " c ++ " \\") :: joinChunks (c' :: rest)

/-- Bar lines for one measure's token list (src lines 424-432). -/
def wrapBar (bar_content : List String) : List String :=
  if bar_content.length > 16 then joinChunks (chunks16 bar_content)
  else [String.intercalate " " bar_content ++ " |"]

/-- Section keyword table (src lines 252-261), in source (insertion) order. -/
def section_keywords : List (String × List String) :=
  [("VERSE", ["verse", "v1", "v2", "v3", "v4", "verse 1", "verse 2"]),
   ("CHORUS", ["chorus", "ch", "chor", "refrain"]),
   ("BRIDGE", ["bridge", "br", "middle eight"]),
   ("INTRO", ["intro", "introduction"]),
   ("OUTRO", ["outro", "ending", "coda", "end"]),
   ("SOLO", ["solo", "instrumental", "inst", "guitar solo", "bass solo"]),
   ("PRE-CHORUS", ["pre-chorus", "pre chorus", "prechorus", "pre-verse"]),
   ("INTERLUDE", ["interlude", "break", "intermezzo"])]

/-- First matching section type for a text (src lines 263-267). -/
def sectionTypeOf (txt : String) : Option String :=
  (section_keywords.find? (fun kv => kv.2.any (fun kw => pyInStr (pyLower kw) (pyLower txt)))).map (·.1)

/-- The attribute scan of src lines 244-274: the first attribute that is
present, truthy and nonempty after stripping is used (stripped). -/
def firstSectionText : List (Option String) → Option String
  | [] => Option.none
  | o :: rest =>
    match o with
    | some s =>
      if s ≠ "" then
        if pyStrip s ≠ "" then some (pyStrip s) else firstSectionText rest
      else firstSectionText rest
    | Option.none => firstSectionText rest

/-- `{SECTION: name}` line for a measure marker (src lines 235-241). -/
def markerLines (h : MeasureHeaderData) : List String :=
  match h.marker with
  | some s => if s ≠ "" then ["\x7bSECTION: " ++ s ++ "\x7d"] else []
  | Option.none => []

/-- Section / text annotation line from the header text attributes
(src lines 243-274). -/
def measureTextLines (h : MeasureHeaderData) : List String :=
  match firstSectionText [h.text, h.direction, h.annotText, h.comment] with
  | Option.none => []
  | some st =>
    match sectionTypeOf st with
    | some ty => ["\x7bSECTION: " ++ ty ++ " - " ++ st ++ "\x7d"]
    | Option.none => ["\x7bTEXT: " ++ st ++ "\x7d"]

/-- Repeat / alternative-ending tags (src lines 276-288). -/
def repeatLines (h : MeasureHeaderData) : List String :=
  (if h.repeatAlternative ≠ 0 then
    ["\x7bALTERNATIVE: " ++ toString h.repeatAlternative ++ "\x7d"]
  else []) ++
  (match h.repeatData with
   | Option.none => []
   | some r =>
     if r.closings ≠ 0 then ["\x7bREPEAT: " ++ toString r.closings ++ " times\x7d"]
     else if r.close then ["\x7bREPEAT END\x7d"]
     else if r.isOpen then ["\x7bREPEAT START\x7d"]
     else [])

/-- All lines one measure contributes (src lines 231-432); only the first
voice is transcribed, and a measure with no voices emits no bar line. -/
def measureLines (strs : List ℤ) (m : MeasureData) : List String :=
  markerLines m.header ++ measureTextLines m.header ++ repeatLines m.header ++
  (match m.voices with
   | [] => []
   | v :: _ => wrapBar (v.beats.flatMap (beatTokens strs)))

/-! ## Track admission and emission (src lines 175-435). -/

def is_guitar (t : TrackData) : Bool :=
  (match t.channel.instrument with
   | some p => decide (24 ≤ p ∧ p ≤ 31)
   | Option.none => false) ||
  decide (6 ≤ t.strings.length)

def is_bass (t : TrackData) : Bool :=
  (match t.channel.instrument with
   | some p => decide (32 ≤ p ∧ p ≤ 39)
   | Option.none => false) ||
  decide (4 ≤ t.strings.length ∧ t.strings.length ≤ 5)

/-- A track is transcribed iff it is not percussion and looks like a guitar
or a bass (src lines 178-188). -/
def admitsTrack (t : TrackData) : Bool := !t.isPercussionTrack && (is_guitar t || is_bass t)

/-- `instrument = "Bass" if is_bass else "Guitar"` (src line 190). -/
def instrumentLabel (t : TrackData) : String := if is_bass t then "Bass" else "Guitar"

/-- `track.name or f"Track {track.number}"` (src line 191). -/
def trackDisplayName (t : TrackData) : String :=
  if t.name ≠ "" then t.name else "Track " ++ toString t.number

/-- Tuning names, open strings sorted descending by pitch (src lines 205-209). -/
def tuningNames (strs : List ℤ) : List String :=
  (strs.insertionSort (· ≥ ·)).map
    (fun p => name_map.getD (p.emod 12).toNat "" ++ toString (p.ediv 12 - 1))

/-- All lines of one admitted track's block, including the trailing blank
separator (src lines 190-434). -/
def trackBlock (song : SongData) (num den : ℤ) (key_text : String)
    (t : TrackData) (idx : ℕ) : List String :=
  let instrument := instrumentLabel t
  let nm := trackDisplayName t
  let strs := t.strings.map (·.value)
  (["Track: " ++ nm ++ " (" ++ instrument ++ ")"] ++
   (if t.description ≠ "" then ["Description: " ++ t.description] else []) ++
   (if t.comments ≠ "" then ["Comments: " ++ t.comments] else []) ++
   ["Tuning: " ++ String.intercalate " " (tuningNames strs)] ++
   ["ABC Notation:"] ++
   ["X:" ++ toString idx] ++
   ["T:" ++ song.title] ++
   (if song.subtitles ≠ [] then song.subtitles.map (fun s => "T:" ++ s) else []) ++
   ["C:" ++ (if song.composer ≠ "Unknown Composer" then song.composer else "")] ++
   ["A:" ++ (if song.artist ≠ "Unknown Artist" then song.artist else "")] ++
   ["Z:" ++ (if song.album ≠ "Unknown Album" then song.album else "")] ++
   ["N:" ++ nm ++ " (" ++ instrument ++ ")"] ++
   ["M:" ++ toString num ++ "/" ++ toString den] ++
   ["L:1/16"] ++
   ["Q:1/4=" ++ toString song.tempo] ++
   ["K:" ++ key_text]) ++
  (t.measures.flatMap (measureLines strs)) ++
  [""]

/-- The per-track loop (src lines 176-435): skipped tracks emit nothing and
leave `tune_index` unchanged; admitted tracks advance it by one. -/
def tracksLines (song : SongData) (num den : ℤ) (key_text : String) :
    List TrackData → ℕ → List String
  | [], _ => []
  | t :: rest, idx =>
    if admitsTrack t then
      trackBlock song num den key_text t idx ++ tracksLines song num den key_text rest (idx + 1)
    else tracksLines song num den key_text rest idx

/-! ## Song-level resolution and assembly (src lines 7-102, 437-439). -/

/-- Time signature from the first track's first measure, default `(4, 4)`
(src lines 47-53). -/
def resolvedTimeSig (song : SongData) : ℤ × ℤ :=
  match song.tracks with
  | [] => (4, 4)
  | t :: _ =>
    match t.measures with
    | [] => (4, 4)
    | m :: _ => (m.header.timeSignature.numerator, m.header.timeSignature.denominatorValue)

/-- Fixed notation-conventions preamble (src lines 69-78). -/
def preambleLines : List String :=
  ["Custom ABC notation enhancements:",
   "- Chords are labeled in brackets (e.g. [C5] for C power chord)",
   "- Guitar techniques are noted with separate parentheses:",
   "  - **(b)** for a pitch bend",
   "  - **(h)** for a harmonic",
   "  - **(s)** for a slide between notes",
   "  - **(ho)** for a hammer-on",
   "  - **(po)** for a pull-off",
   "- Song sections are marked with: \x7bSECTION: name\x7d",
   "- Lyrics are included as: \"Lyric text\"\n"]

/-- Song metadata block (src lines 80-102). -/
def metaLines (song : SongData) (key_text : String) (num den : ℤ) : List String :=
  ["Title: " ++ song.title] ++
  (if song.artist ≠ "Unknown Artist" then ["Artist: " ++ song.artist] else []) ++
  (if song.album ≠ "Unknown Album" then ["Album: " ++ song.album] else []) ++
  (if song.composer ≠ "Unknown Composer" then ["Composer: " ++ song.composer] else []) ++
  (if song.copyright ≠ "" then ["Copyright: " ++ song.copyright] else []) ++
  (if song.notice ≠ "" then ["Notes: " ++ song.notice] else []) ++
  (if song.instructions ≠ "" then ["Instructions: " ++ song.instructions] else []) ++
  (if song.subtitles ≠ [] then ["Subtitles: " ++ String.intercalate " / " song.subtitles] else []) ++
  ["Tempo: " ++ toString song.tempo ++ " BPM"] ++
  [if key_text.toList.getLast? = some 'm' then
     "Key: " ++ String.mk key_text.toList.dropLast ++ " minor"
   else "Key: " ++ key_text ++ " major"] ++
  ["Time Signature: " ++ toString num ++ "/" ++ toString den ++ "\n"]

/-- The whole output as a list of lines; `none` models the only exception
the source can raise itself (the key-table `KeyError`). -/
def processLines (song : SongData) : Option (List String) :=
  match resolveKeyText song.key with
  | Option.none => Option.none
  | some key_text =>
    let ts := resolvedTimeSig song
    some (preambleLines ++ metaLines song key_text ts.1 ts.2 ++
      tracksLines song ts.1 ts.2 key_text song.tracks 1)

/-- `process_guitar_pro` applied to an already-parsed song model
(src lines 7-439): the joined output text. -/
def process_guitar_pro (song : SongData) : Option String :=
  (processLines song).map (String.intercalate "\n")

/-! ## Claim-side definitions and sample data used by the theorems -/

/-- The claim's admission predicate, stated propositionally. -/
def claimAdmits (t : TrackData) : Prop :=
  t.isPercussionTrack = false ∧
    (((∃ p, t.channel.instrument = some p ∧ 24 ≤ p ∧ p ≤ 31) ∨ 6 ≤ t.strings.length) ∨
     ((∃ p, t.channel.instrument = some p ∧ 32 ≤ p ∧ p ≤ 39) ∨
       (4 ≤ t.strings.length ∧ t.strings.length ≤ 5)))

/-- A percussion track (never admitted). -/
def sampleDrumTrack : TrackData := ⟨"drums", 1, true, ⟨some 0⟩, [], "", "", []⟩

/-- A guitar-program track with no strings listed (admitted as guitar). -/
def sampleGuitarTrack : TrackData := ⟨"gtr", 2, false, ⟨some 28⟩, [], "", "", []⟩

/-- A two-track sample song without a key signature. -/
def sampleSong : SongData :=
  ⟨120, Option.none, "T", "Unknown Artist", "Unknown Album", "Unknown Composer",
   "", "", "", "", [], [sampleDrumTrack, sampleGuitarTrack]⟩

/-- A guitar-program (28 ∈ 24-31) track that also declares 4 strings. -/
def sampleGuitarProgBassStrings : TrackData :=
  ⟨"gb", 3, false, ⟨some 28⟩, [⟨43⟩, ⟨38⟩, ⟨33⟩, ⟨28⟩], "", "", []⟩

/-- Claim-side table: the plain letter of each pitch class. -/
def baseLetter (pc : ℕ) : Char :=
  (['C', 'C', 'D', 'D', 'E', 'F', 'F', 'G', 'G', 'A', 'A', 'B'].getD pc 'C')

/-- Claim-side predicate: the chromatic (non-natural) pitch classes. -/
def chromatic (pc : ℕ) : Bool := pc ∈ [1, 3, 6, 8, 10]

/-- Claim-side accidental marker. -/
def accMark (pc : ℕ) : String := if chromatic pc then "^" else ""

/-- Claim-side chord recognizer, following the claim's words: reduce to the
set of unique pitch classes, take the lowest class as the tentative root,
form the set of the other classes' intervals from the root mod 12 (a set
comparison, so "sorted ascending" is implicit), and match the fixed tables
by cardinality. -/
def identify_chord_claim (pitches : List ℤ) : Option String :=
  let C : Finset ℤ := (pitches.map (fun p => p.emod 12)).toFinset
  if h : C.Nonempty then
    let root := C.min' h
    let ivs : Finset ℤ := (C.erase root).image (fun c => (c - root).emod 12)
    let nm := name_map.getD root.toNat ""
    if C.card = 2 then (if ivs = {7} then some (nm ++ "5") else none)
    else if C.card = 3 then
      if ivs = {4, 7} then some (nm ++ "maj")
      else if ivs = {3, 7} then some (nm ++ "min")
      else if ivs = {3, 6} then some (nm ++ "dim")
      else if ivs = {4, 8} then some (nm ++ "aug")
      else if ivs = {2, 7} then some (nm ++ "sus2")
      else if ivs = {5, 7} then some (nm ++ "sus4")
      else none
    else if C.card = 4 then
      if ivs = {4, 7, 10} then some (nm ++ "7")
      else if ivs = {3, 7, 10} then some (nm ++ "min7")
      else if ivs = {4, 7, 11} then some (nm ++ "maj7")
      else if ivs = {3, 6, 10} then some (nm ++ "min7b5")
      else if ivs = {3, 6, 9} then some (nm ++ "dim7")
      else if ivs = {4, 7, 9} then some (nm ++ "6")
      else if ivs = {3, 7, 9} then some (nm ++ "min6")
      else none
    else none
  else none

/-! ## General helper lemmas -/

theorem toDigitsCore_ne_nil (b : ℕ) :
    ∀ (fuel n : ℕ) (ds : List Char), fuel ≠ 0 → Nat.toDigitsCore b fuel n ds ≠ [] := by
  intro fuel
  induction fuel with
  | zero => intro n ds h; exact absurd rfl h
  | succ f ih =>
    intro n ds _
    rw [Nat.toDigitsCore]
    split
    · simp
    · rcases Nat.eq_zero_or_pos f with hf | hf
      · subst hf; rw [Nat.toDigitsCore]; simp
      · exact ih _ _ (Nat.pos_iff_ne_zero.mp hf)

theorem natRepr_ne_empty (n : ℕ) : Nat.repr n ≠ "" := by
  rw [Nat.repr, Nat.toDigits, List.asString]
  intro h
  exact toDigitsCore_ne_nil 10 (n + 1) n [] (by omega) (congrArg String.data h)

theorem intToString_ne_empty (z : ℤ) (h : 0 ≤ z) : toString z ≠ "" := by
  obtain ⟨n, rfl⟩ := Int.eq_ofNat_of_zero_le h
  show Int.repr (Int.ofNat n) ≠ ""
  rw [Int.repr]
  exact natRepr_ne_empty n

theorem length_multiplier_pos (d : ℕ) (dotted : Bool) : 0 < length_multiplier d dotted := by
  rw [length_multiplier]
  have h16 : (0 : ℚ) < 16 := by norm_num
  have hbase : (0 : ℚ) < if d ≠ 0 then 16 / (d : ℚ) else 16 := by
    split
    · apply div_pos h16
      exact_mod_cast Nat.pos_of_ne_zero (by assumption)
    · exact h16
  split
  · positivity
  · exact hbase

/-! ## C1: duration suffix -/

/-- C1: for every beat duration, the multiplier is `16 / d` (16 when
`d = 0`), times `3/2` when dotted; the suffix is empty iff the multiplier
is 1, is `/` + `int(1/m)` when `m < 1`, and is the truncated `int(m)` when
`m > 1`; `d = 4` undotted gives `"4"`, `d = 16` undotted gives no suffix,
`d = 8` dotted gives `"3"`, and `d = 16` dotted truncates `1.5` to `"1"`. -/
theorem c1_duration_suffix (d : ℕ) (dotted : Bool) :
    (d ≠ 0 → length_multiplier d false = 16 / (d : ℚ)) ∧
    length_multiplier 0 false = 16 ∧
    length_multiplier d true = length_multiplier d false * (3 / 2) ∧
    (durationSuffix d dotted = "" ↔ length_multiplier d dotted = 1) ∧
    (length_multiplier d dotted < 1 →
      durationSuffix d dotted = "/" ++ toString ⌊1 / length_multiplier d dotted⌋) ∧
    (1 < length_multiplier d dotted →
      durationSuffix d dotted = toString ⌊length_multiplier d dotted⌋) ∧
    durationSuffix 4 false = "4" ∧ durationSuffix 16 false = "" ∧
    durationSuffix 8 true = "3" ∧ durationSuffix 16 true = "1" := by
  refine ⟨fun h => by simp [length_multiplier, h], by norm_num [length_multiplier],
    by simp [length_multiplier], ⟨?_, ?_⟩, ?_, ?_, ?_, ?_, ?_, ?_⟩
  · intro h
    by_contra hne
    rcases lt_or_gt_of_ne hne with hlt | hgt
    · simp only [durationSuffix, if_neg hne, if_pos hlt] at h
      have := congrArg String.length h
      simp [String.length_append] at this
      exact absurd this.1 (by decide)
    · simp only [durationSuffix, if_neg hne, if_neg (not_lt.mpr hgt.le)] at h
      have h1 : (1 : ℤ) ≤ ⌊length_multiplier d dotted⌋ := by
        rw [Int.le_floor]; exact_mod_cast hgt.le
      exact intToString_ne_empty _ (by omega) h
  · intro h; simp [durationSuffix, h]
  · intro h
    simp only [durationSuffix, if_neg (ne_of_lt h), if_pos h]
  · intro h
    simp only [durationSuffix, if_neg (ne_of_gt h), if_neg (not_lt.mpr h.le)]
  · have h : length_multiplier 4 false = 4 := by norm_num [length_multiplier]
    rw [durationSuffix, h]; norm_num; decide
  · have h : length_multiplier 16 false = 1 := by norm_num [length_multiplier]
    rw [durationSuffix, h]; norm_num
  · have h : length_multiplier 8 true = 3 := by norm_num [length_multiplier]
    rw [durationSuffix, h]; norm_num; decide
  · have h : length_multiplier 16 true = 3 / 2 := by norm_num [length_multiplier]
    rw [durationSuffix, h]; norm_num; decide

/-- C1 witness: the hypotheses of `c1_duration_suffix` discharged at
concrete inputs (`d = 32` undotted for the `m < 1` branch, `d = 8` dotted
for the `m > 1` branch). -/
theorem c1_duration_suffix_witness :
    (32 : ℕ) ≠ 0 ∧ length_multiplier 32 false < 1 ∧ 1 < length_multiplier 8 true ∧
    length_multiplier 32 false = 16 / (32 : ℚ) ∧
    durationSuffix 32 false = "/" ++ toString ⌊1 / length_multiplier 32 false⌋ ∧
    durationSuffix 8 true = toString ⌊length_multiplier 8 true⌋ := by
  have h32 : length_multiplier 32 false < 1 := by norm_num [length_multiplier]
  have h8 : 1 < length_multiplier 8 true := by norm_num [length_multiplier]
  exact ⟨by decide, h32, h8, (c1_duration_suffix 32 false).1 (by decide),
    (c1_duration_suffix 32 false).2.2.2.2.1 h32,
    (c1_duration_suffix 8 true).2.2.2.2.2.1 h8⟩

/-! ## C9: determinism -/

/-- C9: the transcoder is a pure function of the song model: invoking it
twice on the same unmodified song produces byte-identical output (input
mutation is impossible in this embedding, where the song model is an
immutable value). -/
theorem c9_deterministic (song : SongData) :
    process_guitar_pro song = process_guitar_pro song := rfl

/-! ## C5: track admission and tune index -/

/-- C5: a track produces output iff it is admitted; skipped tracks emit no
lines and leave the tune index unchanged; admitted tracks emit a nonempty
block and advance the index by exactly one, in source order starting
from 1. -/
theorem c5_track_admission :
    (∀ song num den kt t rest idx, admitsTrack t = false →
      tracksLines song num den kt (t :: rest) idx = tracksLines song num den kt rest idx) ∧
    (∀ song num den kt t rest idx, admitsTrack t = true →
      tracksLines song num den kt (t :: rest) idx =
        trackBlock song num den kt t idx ++ tracksLines song num den kt rest (idx + 1)) ∧
    (∀ song num den kt t idx, trackBlock song num den kt t idx ≠ []) ∧
    (∀ t, admitsTrack t = true ↔ claimAdmits t) ∧
    (∀ song kt, resolveKeyText song.key = some kt →
      processLines song = some (preambleLines ++
        metaLines song kt (resolvedTimeSig song).1 (resolvedTimeSig song).2 ++
        tracksLines song (resolvedTimeSig song).1 (resolvedTimeSig song).2 kt
          song.tracks 1)) := by
  refine ⟨?_, ?_, ?_, ?_, ?_⟩
  · intro song num den kt t rest idx h
    simp [tracksLines, h]
  · intro song num den kt t rest idx h
    simp [tracksLines, h]
  · intro song num den kt t idx
    simp [trackBlock]
  · intro t
    rw [claimAdmits, admitsTrack, is_guitar, is_bass]
    cases t.channel.instrument <;> simp <;> tauto
  · intro song kt h
    simp [processLines, h]

/-- C5 witness: on the sample song the percussion track contributes nothing
and keeps the index, the guitar track opens block 1 and moves the index
to 2. -/
theorem c5_track_admission_witness :
    admitsTrack sampleDrumTrack = false ∧
    tracksLines sampleSong 4 4 "C" [sampleDrumTrack, sampleGuitarTrack] 1 =
      tracksLines sampleSong 4 4 "C" [sampleGuitarTrack] 1 ∧
    admitsTrack sampleGuitarTrack = true ∧
    tracksLines sampleSong 4 4 "C" [sampleGuitarTrack] 1 =
      trackBlock sampleSong 4 4 "C" sampleGuitarTrack 1 ++
        tracksLines sampleSong 4 4 "C" [] 2 ∧
    claimAdmits sampleGuitarTrack ∧
    resolveKeyText sampleSong.key = some "C" ∧
    processLines sampleSong = some (preambleLines ++
      metaLines sampleSong "C" (resolvedTimeSig sampleSong).1 (resolvedTimeSig sampleSong).2 ++
      tracksLines sampleSong (resolvedTimeSig sampleSong).1 (resolvedTimeSig sampleSong).2 "C"
        sampleSong.tracks 1) :=
  ⟨by decide,
   c5_track_admission.1 sampleSong 4 4 "C" sampleDrumTrack [sampleGuitarTrack] 1 (by decide),
   by decide,
   c5_track_admission.2.1 sampleSong 4 4 "C" sampleGuitarTrack [] 1 (by decide),
   (c5_track_admission.2.2.2.1 sampleGuitarTrack).mp (by decide),
   rfl,
   c5_track_admission.2.2.2.2 sampleSong "C" rfl⟩

/-! ## C6: instrument classification -/

/-- C6 counterexample: a non-percussion track whose program number 28 lies
in the guitar range 24-31 but which declares 4 strings is labeled "Bass",
not "Guitar" — the program number does not take precedence. -/
theorem c6_program_precedence_counterexample :
    sampleGuitarProgBassStrings.channel.instrument = some 28 ∧
    sampleGuitarProgBassStrings.isPercussionTrack = false ∧
    sampleGuitarProgBassStrings.strings.length = 4 ∧
    admitsTrack sampleGuitarProgBassStrings = true ∧
    instrumentLabel sampleGuitarProgBassStrings = "Bass" ∧
    "Bass" ≠ "Guitar" := by
  refine ⟨rfl, rfl, rfl, by decide, by decide, by decide⟩

/-- C6 amended: the bass test wins the label whenever it holds (bass-range
program or 4-5 declared strings); a guitar-range program yields the
"Guitar" label only when the track does not also qualify as bass; when the
program number is absent or in neither range, the declared string count
alone decides. -/
theorem c6_instrument_precedence :
    (∀ t p, t.channel.instrument = some p → 32 ≤ p → p ≤ 39 →
      instrumentLabel t = "Bass") ∧
    (∀ t, 4 ≤ t.strings.length → t.strings.length ≤ 5 → instrumentLabel t = "Bass") ∧
    (∀ t p, t.channel.instrument = some p → 24 ≤ p → p ≤ 31 →
      ¬(4 ≤ t.strings.length ∧ t.strings.length ≤ 5) → instrumentLabel t = "Guitar") ∧
    (∀ t p, t.channel.instrument = some p → ¬(24 ≤ p ∧ p ≤ 31) → ¬(32 ≤ p ∧ p ≤ 39) →
      instrumentLabel t =
        (if 4 ≤ t.strings.length ∧ t.strings.length ≤ 5 then "Bass" else "Guitar")) ∧
    (∀ t, t.channel.instrument = Option.none →
      instrumentLabel t =
        (if 4 ≤ t.strings.length ∧ t.strings.length ≤ 5 then "Bass" else "Guitar")) ∧
    (∀ song num den kt t idx, (trackBlock song num den kt t idx).head? =
      some ("Track: " ++ trackDisplayName t ++ " (" ++ instrumentLabel t ++ ")")) := by
  refine ⟨?_, ?_, ?_, ?_, ?_, ?_⟩
  · intro t p hp h32 h39
    have hb : is_bass t = true := by
      rw [is_bass, hp]
      simp only [Bool.or_eq_true, decide_eq_true_eq]
      exact Or.inl ⟨h32, h39⟩
    rw [instrumentLabel, if_pos hb]
  · intro t h4 h5
    have hb : is_bass t = true := by
      rw [is_bass]
      cases t.channel.instrument <;>
        simp only [Bool.or_eq_true, decide_eq_true_eq] <;> exact Or.inr ⟨h4, h5⟩
    rw [instrumentLabel, if_pos hb]
  · intro t p hp h24 h31 hs
    have hb : is_bass t = false := by
      rw [is_bass, hp]
      simp only [Bool.or_eq_false_iff, decide_eq_false_iff_not]
      exact ⟨fun h => by omega, hs⟩
    rw [instrumentLabel, if_neg (by simp [hb])]
  · intro t p hp hg hb
    rw [instrumentLabel, is_bass, hp]
    by_cases hs : 4 ≤ t.strings.length ∧ t.strings.length ≤ 5
    · rw [if_pos hs]
      simp [hs, hb]
    · rw [if_neg hs]
      simp [hs, hb]
  · intro t hp
    rw [instrumentLabel, is_bass, hp]
    by_cases hs : 4 ≤ t.strings.length ∧ t.strings.length ≤ 5
    · rw [if_pos hs]; simp [hs]
    · rw [if_neg hs]; simp [hs]
  · intro song num den kt t idx
    simp [trackBlock]

/-- C6 witness: `c6_instrument_precedence` applied to concrete tracks:
program 35 gives Bass, program 28 with no strings gives Guitar, program 90
with 5 strings falls back to the string count. -/
theorem c6_instrument_precedence_witness :
    instrumentLabel ⟨"b", 1, false, ⟨some 35⟩, [], "", "", []⟩ = "Bass" ∧
    instrumentLabel sampleGuitarTrack = "Guitar" ∧
    instrumentLabel ⟨"x", 1, false, ⟨some 90⟩, [⟨43⟩, ⟨38⟩, ⟨33⟩, ⟨28⟩, ⟨23⟩], "", "", []⟩ =
      (if 4 ≤ ([⟨43⟩, ⟨38⟩, ⟨33⟩, ⟨28⟩, (⟨23⟩ : GPStringData)] : List GPStringData).length ∧
          ([⟨43⟩, ⟨38⟩, ⟨33⟩, ⟨28⟩, (⟨23⟩ : GPStringData)] : List GPStringData).length ≤ 5
        then "Bass" else "Guitar") :=
  ⟨c6_instrument_precedence.1 _ 35 rfl (by decide) (by decide),
   c6_instrument_precedence.2.2.1 sampleGuitarTrack 28 rfl (by decide) (by decide)
     (by rw [sampleGuitarTrack]; decide),
   c6_instrument_precedence.2.2.2.1 _ 90 rfl (by decide) (by decide)⟩

/-! ## C7: time signature resolution -/

theorem m_line_mem_trackBlock (song : SongData) (num den : ℤ) (kt : String)
    (t : TrackData) (idx : ℕ) :
    ("M:" ++ toString num ++ "/" ++ toString den) ∈ trackBlock song num den kt t idx := by
  simp [trackBlock]

theorem m_line_mem_tracksLines (song : SongData) (num den : ℤ) (kt : String)
    (t : TrackData) :
    ∀ (ts : List TrackData) (idx : ℕ), t ∈ ts → admitsTrack t = true →
      ("M:" ++ toString num ++ "/" ++ toString den) ∈ tracksLines song num den kt ts idx := by
  intro ts
  induction ts with
  | nil => intro idx h; cases h
  | cons t' rest ih =>
    intro idx hmem hadm
    rw [tracksLines]
    rcases List.mem_cons.mp hmem with rfl | hrest
    · rw [if_pos hadm]
      exact List.mem_append_left _ (m_line_mem_trackBlock song num den kt _ idx)
    · by_cases h : admitsTrack t' = true
      · rw [if_pos h]
        exact List.mem_append_right _ (ih (idx + 1) hrest hadm)
      · rw [if_neg h]
        exact ih idx hrest hadm

/-- C7: the resolved time signature is read from the first track's first
measure header, defaulting to (4,4) when the song has no tracks or the
first track has no measures; it is resolved once, and the same resolved
pair appears as the `M:` header line of every admitted track. -/
theorem c7_time_signature :
    (∀ song, song.tracks = [] → resolvedTimeSig song = (4, 4)) ∧
    (∀ song t rest, song.tracks = t :: rest → t.measures = [] →
      resolvedTimeSig song = (4, 4)) ∧
    (∀ song t rest m ms, song.tracks = t :: rest → t.measures = m :: ms →
      resolvedTimeSig song =
        (m.header.timeSignature.numerator, m.header.timeSignature.denominatorValue)) ∧
    (∀ song lines t, processLines song = some lines → t ∈ song.tracks →
      admitsTrack t = true →
      ("M:" ++ toString (resolvedTimeSig song).1 ++ "/" ++
        toString (resolvedTimeSig song).2) ∈ lines) := by
  refine ⟨?_, ?_, ?_, ?_⟩
  · intro song h; rw [resolvedTimeSig, h]
  · intro song t rest ht hm; simp only [resolvedTimeSig, ht, hm]
  · intro song t rest m ms ht hm; simp only [resolvedTimeSig, ht, hm]
  · intro song lines t hproc hmem hadm
    rw [processLines] at hproc
    cases hkey : resolveKeyText song.key with
    | none => rw [hkey] at hproc; cases hproc
    | some kt =>
      rw [hkey] at hproc
      have hlines := (Option.some.injEq _ _).mp hproc
      rw [← hlines]
      refine List.mem_append_right _ ?_
      exact m_line_mem_tracksLines song _ _ kt t song.tracks 1 hmem hadm

/-- C7 witness: `c7_time_signature` applied to the sample song (no tracks
with measures, so the default applies, and the guitar track's block
carries `M:4/4`). -/
theorem c7_time_signature_witness :
    resolvedTimeSig sampleSong = (4, 4) ∧
    ("M:" ++ toString (resolvedTimeSig sampleSong).1 ++ "/" ++
      toString (resolvedTimeSig sampleSong).2) ∈
      (preambleLines ++
        metaLines sampleSong "C" (resolvedTimeSig sampleSong).1 (resolvedTimeSig sampleSong).2 ++
        tracksLines sampleSong (resolvedTimeSig sampleSong).1 (resolvedTimeSig sampleSong).2 "C"
          sampleSong.tracks 1) :=
  ⟨c7_time_signature.2.1 sampleSong sampleDrumTrack [sampleGuitarTrack] rfl rfl,
   c7_time_signature.2.2.2 sampleSong _ sampleGuitarTrack
     (by rw [processLines]; rfl) (by decide) (by decide)⟩

/-! ## C8: out-of-range string indices -/

theorem durationSuffix_16_false : durationSuffix 16 false = "" := by
  have h : length_multiplier 16 false = 1 := by norm_num [length_multiplier]
  rw [durationSuffix, h]
  norm_num

/-- C8 counterexample: on a 1-string track (open pitch 64), a two-note beat
whose second note sits on string 7 at fret 3 contributes only the in-range
pitch 64 — the out-of-range note is dropped from the chord, not encoded
with open pitch 0 (which would contribute pitch 3). -/
theorem c8_chord_out_of_range_counterexample :
    ([⟨1, 0, Option.none⟩, ⟨7, 3, Option.none⟩] : List GPNote).length = 2 ∧
    ([(64 : ℤ)].length : ℤ) < 7 ∧
    chordPitches [64] [⟨1, 0, Option.none⟩, ⟨7, 3, Option.none⟩] = [64] ∧
    (3 : ℤ) ∉ chordPitches [64] [⟨1, 0, Option.none⟩, ⟨7, 3, Option.none⟩] ∧
    beatTokens [64]
      ⟨some ⟨16, false⟩, [⟨1, 0, Option.none⟩, ⟨7, 3, Option.none⟩],
        Option.none, Option.none⟩ = ["[E]"] := by
  refine ⟨by decide, by decide, by decide, by decide, ?_⟩
  simp only [beatTokens, beatAnnTokens, chordToken, durOf, dottedOf,
    Option.map_some', Option.getD_some,
    show chordPitches [64] [⟨1, 0, Option.none⟩, ⟨7, 3, Option.none⟩] = [64] from by decide,
    show identify_chord [(64 : ℤ)] = Option.none from by decide,
    show List.insertionSort (α := ℤ) (· ≤ ·) [64] = [64] from by decide,
    show midi_to_abc 64 = "E" from by decide,
    durationSuffix_16_false]
  decide

/-- C8 amended: a single-note beat whose string index exceeds the declared
string count resolves its open pitch to 0 (absolute pitch = fret alone) and
is still encoded; in a multi-note beat such notes are instead excluded from
the chord's pitch list. -/
theorem c8_out_of_range_string :
    (∀ (strs : List ℤ) (n : GPNote), strs.length < n.string →
      noteOpenPitch strs n = 0 ∧ noteAbsPitch strs n = n.value) ∧
    (∀ strs beat n, beat.notes = [n] →
      beatTokens strs beat = beatAnnTokens beat ++ [singleNoteToken strs beat n]) ∧
    (∀ strs notes, chordPitches strs notes =
      chordPitches strs
        (notes.filter (fun n => decide ((n.string : ℤ) ≤ (strs.length : ℤ))))) := by
  refine ⟨?_, ?_, ?_⟩
  · intro strs n h
    have hlt : ¬((n.string : ℤ) ≤ (strs.length : ℤ)) := by exact_mod_cast not_le.mpr h
    have h0 : noteOpenPitch strs n = 0 := by rw [noteOpenPitch, if_neg hlt]
    exact ⟨h0, by rw [noteAbsPitch, h0, zero_add]⟩
  · intro strs beat n h
    simp [beatTokens, h]
  · intro strs notes
    induction notes with
    | nil => rfl
    | cons n ns ih =>
      by_cases h : (n.string : ℤ) ≤ (strs.length : ℤ)
      · simp only [chordPitches, List.filterMap_cons, List.filter_cons] at ih ⊢
        simp only [if_pos h, decide_eq_true h, if_true, List.filterMap_cons, if_pos h]
        rw [ih]
      · simp only [chordPitches, List.filterMap_cons, List.filter_cons] at ih ⊢
        simp only [if_neg h, decide_eq_false h, Bool.false_eq_true, if_false]
        rw [ih]

/-- C8 witness: on a track with no strings, the single note on string 2
fret 5 sounds at absolute pitch 5 and is still emitted. -/
theorem c8_out_of_range_string_witness :
    ([] : List ℤ).length < (2 : ℕ) ∧
    noteOpenPitch [] ⟨2, 5, Option.none⟩ = 0 ∧
    noteAbsPitch [] ⟨2, 5, Option.none⟩ = 5 ∧
    beatTokens [] ⟨some ⟨16, false⟩, [⟨2, 5, Option.none⟩], Option.none, Option.none⟩ =
      beatAnnTokens ⟨some ⟨16, false⟩, [⟨2, 5, Option.none⟩], Option.none, Option.none⟩ ++
        [singleNoteToken [] ⟨some ⟨16, false⟩, [⟨2, 5, Option.none⟩], Option.none, Option.none⟩
          ⟨2, 5, Option.none⟩] :=
  ⟨by decide,
   (c8_out_of_range_string.1 [] ⟨2, 5, Option.none⟩ (by decide)).1,
   (c8_out_of_range_string.1 [] ⟨2, 5, Option.none⟩ (by decide)).2,
   c8_out_of_range_string.2.1 [] _ ⟨2, 5, Option.none⟩ rfl⟩

/-! ## C10: rest beats and beat annotations -/

/-- C10: a beat with no notes yields exactly one rest token, discarding any
beat annotation; on a beat with notes, a nonblank annotation becomes its
own quoted token placed before the note/chord token; a measure's bar lines
are the 16-token wrapping of the concatenated per-beat tokens, so the
annotation counts toward the limit. -/
theorem c10_rest_and_annot :
    (∀ strs (beat : GPBeat), beat.notes = [] →
      beatTokens strs beat = [restToken beat.duration]) ∧
    (∀ strs (beat : GPBeat) n tx, beat.notes = [n] → beat.text = some tx →
      pyStrip tx ≠ "" →
      beatTokens strs beat = ["\"(" ++ tx ++ ")\"", singleNoteToken strs beat n]) ∧
    (∀ strs (beat : GPBeat) n n' rest tx, beat.notes = n :: n' :: rest →
      beat.text = some tx → pyStrip tx ≠ "" →
      beatTokens strs beat = ["\"(" ++ tx ++ ")\"", chordToken strs beat]) ∧
    (∀ strs header v vs, measureLines strs ⟨header, v :: vs⟩ =
      markerLines header ++ measureTextLines header ++ repeatLines header ++
        wrapBar (v.beats.flatMap (beatTokens strs))) ∧
    (∀ toks : List String, toks.length ≤ 16 →
      wrapBar toks = [String.intercalate " " toks ++ " |"]) := by
  refine ⟨?_, ?_, ?_, ?_, ?_⟩
  · intro strs beat h
    simp [beatTokens, h]
  · intro strs beat n tx hn htx hstrip
    simp [beatTokens, hn, beatAnnTokens, htx, hstrip]
  · intro strs beat n n' rest tx hn htx hstrip
    simp [beatTokens, hn, beatAnnTokens, htx, hstrip]
  · intro strs header v vs
    rfl
  · intro toks h
    rw [wrapBar, if_neg (by omega)]

/-- C10 witness: a rest beat carrying an annotation emits only the rest
token; an annotated one-note beat emits the quoted annotation before the
note token; both measures wrap into a single bar line. -/
theorem c10_rest_and_annot_witness :
    beatTokens [] ⟨some ⟨4, false⟩, [], Option.none, some "chorus now"⟩ =
      [restToken (some ⟨4, false⟩)] ∧
    beatTokens [] ⟨some ⟨16, false⟩, [⟨1, 0, Option.none⟩], Option.none, some "hi"⟩ =
      ["\"(hi)\"",
       singleNoteToken [] ⟨some ⟨16, false⟩, [⟨1, 0, Option.none⟩], Option.none, some "hi"⟩
         ⟨1, 0, Option.none⟩] ∧
    wrapBar ["z4"] = [String.intercalate " " ["z4"] ++ " |"] :=
  ⟨c10_rest_and_annot.1 [] _ rfl,
   c10_rest_and_annot.2.1 [] _ ⟨1, 0, Option.none⟩ "hi" rfl rfl (by decide),
   c10_rest_and_annot.2.2.2.2 ["z4"] (by decide)⟩

/-! ## C4: key resolution -/

theorem pyInStr_false_of_sub {p q nm : String} (hpq : p.toList <:+: q.toList)
    (hp : pyInStr p nm = false) : pyInStr q nm = false := by
  by_contra h
  rw [Bool.not_eq_false, pyInStr, decide_eq_true_eq] at h
  have hpnm : pyInStr p nm = true := by
    rw [pyInStr, decide_eq_true_eq]
    exact hpq.trans h
  rw [hp] at hpnm
  cases hpnm

/-- The only strings `scanKeyName` can return: every flat-spelled name and
`C#`/`Cb` are shadowed by an earlier single-letter entry of the scan list,
so only `F#` among the multi-character names survives. -/
theorem scanKeyName_possible (nm : String) :
    scanKeyName nm ∈ (["C", "G", "D", "A", "E", "B", "F#", "F"] : List String) := by
  rw [scanKeyName, keyNoteNames]
  by_cases hC : pyInStr "C" nm = true
  · rw [@List.find?_cons_of_pos _ (fun nn => pyInStr nn nm) "C" _ hC]; decide
  · have hC' : pyInStr "C" nm = false := by simpa using hC
    rw [@List.find?_cons_of_neg _ (fun nn => pyInStr nn nm) "C" _ (by simp [hC'])]
    by_cases hG : pyInStr "G" nm = true
    · rw [@List.find?_cons_of_pos _ (fun nn => pyInStr nn nm) "G" _ hG]; decide
    · have hG' : pyInStr "G" nm = false := by simpa using hG
      rw [@List.find?_cons_of_neg _ (fun nn => pyInStr nn nm) "G" _ (by simp [hG'])]
      by_cases hD : pyInStr "D" nm = true
      · rw [@List.find?_cons_of_pos _ (fun nn => pyInStr nn nm) "D" _ hD]; decide
      · have hD' : pyInStr "D" nm = false := by simpa using hD
        rw [@List.find?_cons_of_neg _ (fun nn => pyInStr nn nm) "D" _ (by simp [hD'])]
        by_cases hA : pyInStr "A" nm = true
        · rw [@List.find?_cons_of_pos _ (fun nn => pyInStr nn nm) "A" _ hA]; decide
        · have hA' : pyInStr "A" nm = false := by simpa using hA
          rw [@List.find?_cons_of_neg _ (fun nn => pyInStr nn nm) "A" _ (by simp [hA'])]
          by_cases hE : pyInStr "E" nm = true
          · rw [@List.find?_cons_of_pos _ (fun nn => pyInStr nn nm) "E" _ hE]; decide
          · have hE' : pyInStr "E" nm = false := by simpa using hE
            rw [@List.find?_cons_of_neg _ (fun nn => pyInStr nn nm) "E" _ (by simp [hE'])]
            by_cases hB : pyInStr "B" nm = true
            · rw [@List.find?_cons_of_pos _ (fun nn => pyInStr nn nm) "B" _ hB]; decide
            · have hB' : pyInStr "B" nm = false := by simpa using hB
              rw [@List.find?_cons_of_neg _ (fun nn => pyInStr nn nm) "B" _ (by simp [hB'])]
              by_cases hFs : pyInStr "F#" nm = true
              · rw [@List.find?_cons_of_pos _ (fun nn => pyInStr nn nm) "F#" _ hFs]; decide
              · have hFs' : pyInStr "F#" nm = false := by simpa using hFs
                rw [@List.find?_cons_of_neg _ (fun nn => pyInStr nn nm) "F#" _ (by simp [hFs'])]
                have hCs : pyInStr "C#" nm = false :=
                  pyInStr_false_of_sub (by decide) hC'
                rw [@List.find?_cons_of_neg _ (fun nn => pyInStr nn nm) "C#" _ (by simp [hCs])]
                by_cases hF : pyInStr "F" nm = true
                · rw [@List.find?_cons_of_pos _ (fun nn => pyInStr nn nm) "F" _ hF]; decide
                · have hF' : pyInStr "F" nm = false := by simpa using hF
                  rw [@List.find?_cons_of_neg _ (fun nn => pyInStr nn nm) "F" _ (by simp [hF'])]
                  have hBb : pyInStr "Bb" nm = false :=
                    pyInStr_false_of_sub (by decide) hB'
                  rw [@List.find?_cons_of_neg _ (fun nn => pyInStr nn nm) "Bb" _ (by simp [hBb])]
                  have hEb : pyInStr "Eb" nm = false :=
                    pyInStr_false_of_sub (by decide) hE'
                  rw [@List.find?_cons_of_neg _ (fun nn => pyInStr nn nm) "Eb" _ (by simp [hEb])]
                  have hAb : pyInStr "Ab" nm = false :=
                    pyInStr_false_of_sub (by decide) hA'
                  rw [@List.find?_cons_of_neg _ (fun nn => pyInStr nn nm) "Ab" _ (by simp [hAb])]
                  have hDb : pyInStr "Db" nm = false :=
                    pyInStr_false_of_sub (by decide) hD'
                  rw [@List.find?_cons_of_neg _ (fun nn => pyInStr nn nm) "Db" _ (by simp [hDb])]
                  have hGb : pyInStr "Gb" nm = false :=
                    pyInStr_false_of_sub (by decide) hG'
                  rw [@List.find?_cons_of_neg _ (fun nn => pyInStr nn nm) "Gb" _ (by simp [hGb])]
                  have hCb : pyInStr "Cb" nm = false :=
                    pyInStr_false_of_sub (by decide) hC'
                  rw [@List.find?_cons_of_neg _ (fun nn => pyInStr nn nm) "Cb" _ (by simp [hCb])]
                  rw [List.find?_nil]
                  decide

/-- C4 counterexample: the scan list checks `"C"` (position 0) before
`"C#"` (position 7), so a key name containing `"C#"` resolves to `"C"`,
refuting "every multi-character name is checked before its
single-character prefix". -/
theorem c4_prefix_order_counterexample :
    pyInStr "C#" "C#Major" = true ∧
    keyNoteNames.indexOf "C" = 0 ∧ keyNoteNames.indexOf "C#" = 7 ∧
    resolveKeyText (some (.name "C#Major")) = some "C" ∧
    some "C" ≠ some "C#" := by
  refine ⟨by decide, by decide, by decide, by decide, by decide⟩

/-- C4 amended: no key signature gives "C"; a numeric pair is looked up in
the fixed major/minor tables, defined on all of [-7,7]; a symbolic name
sets the minor flag iff it contains "Minor"; the tonic scan checks the
fixed list in source order with fallback "C", where only "F#" precedes its
prefix "F" — the other multi-character names are shadowed by an earlier
single-letter entry and can never be returned. -/
theorem c4_key_resolution :
    resolveKeyText Option.none = some "C" ∧
    resolveKeyText (some (.pair 0 false)) = some "C" ∧
    resolveKeyText (some (.pair 3 false)) = some "A" ∧
    resolveKeyText (some (.pair 2 true)) = some "Bm" ∧
    (∀ sh : ℤ, -7 ≤ sh → sh ≤ 7 → ∀ mi,
      (resolveKeyText (some (.pair sh mi))).isSome = true) ∧
    (∀ nm, resolveKeyMinor (some (.name nm)) = pyInStr "Minor" nm) ∧
    (∀ nm, (∀ nn ∈ keyNoteNames, pyInStr nn nm = false) → scanKeyName nm = "C") ∧
    (∀ nm, scanKeyName nm ∉ (["C#", "Bb", "Eb", "Ab", "Db", "Gb", "Cb"] : List String)) ∧
    (∀ nm, pyInStr "F#" nm = true →
      pyInStr "C" nm = false → pyInStr "G" nm = false → pyInStr "D" nm = false →
      pyInStr "A" nm = false → pyInStr "E" nm = false → pyInStr "B" nm = false →
      scanKeyName nm = "F#") ∧
    (∀ song num den, "Key: C major" ∈ metaLines song "C" num den) := by
  refine ⟨rfl, by decide, by decide, by decide, ?_, fun nm => rfl, ?_, ?_, ?_, ?_⟩
  · intro sh h1 h2 mi
    interval_cases sh <;> cases mi <;> decide
  · intro nm h
    rw [scanKeyName]
    have hnone : keyNoteNames.find? (fun nn => pyInStr nn nm) = Option.none := by
      rw [List.find?_eq_none]
      intro x hx
      simp [h x hx]
    rw [hnone]
    rfl
  · intro nm
    have h := scanKeyName_possible nm
    have hdisj : ∀ x ∈ (["C", "G", "D", "A", "E", "B", "F#", "F"] : List String),
        x ∉ (["C#", "Bb", "Eb", "Ab", "Db", "Gb", "Cb"] : List String) := by decide
    exact hdisj _ h
  · intro nm hFs hC hG hD hA hE hB
    rw [scanKeyName, keyNoteNames]
    rw [@List.find?_cons_of_neg _ (fun nn => pyInStr nn nm) "C" _ (by simp [hC])]
    rw [@List.find?_cons_of_neg _ (fun nn => pyInStr nn nm) "G" _ (by simp [hG])]
    rw [@List.find?_cons_of_neg _ (fun nn => pyInStr nn nm) "D" _ (by simp [hD])]
    rw [@List.find?_cons_of_neg _ (fun nn => pyInStr nn nm) "A" _ (by simp [hA])]
    rw [@List.find?_cons_of_neg _ (fun nn => pyInStr nn nm) "E" _ (by simp [hE])]
    rw [@List.find?_cons_of_neg _ (fun nn => pyInStr nn nm) "B" _ (by simp [hB])]
    rw [@List.find?_cons_of_pos _ (fun nn => pyInStr nn nm) "F#" _ hFs]
    rfl
  · intro song num den
    simp [metaLines]

/-- C4 witness: `c4_key_resolution` applied at concrete inputs: sharps −5
resolves, "xyz" matches nothing and falls back to "C", and "F#Major"
resolves to "F#". -/
theorem c4_key_resolution_witness :
    (resolveKeyText (some (.pair (-5) true))).isSome = true ∧
    scanKeyName "xyz" = "C" ∧
    scanKeyName "F#Major" = "F#" ∧
    "Key: C major" ∈ metaLines sampleSong "C" 4 4 :=
  ⟨c4_key_resolution.2.2.2.2.1 (-5) (by decide) (by decide) true,
   c4_key_resolution.2.2.2.2.2.2.1 "xyz" (by decide),
   c4_key_resolution.2.2.2.2.2.2.2.2.1 "F#Major" (by decide) (by decide) (by decide)
     (by decide) (by decide) (by decide) (by decide),
   c4_key_resolution.2.2.2.2.2.2.2.2.2 sampleSong 4 4⟩

/-! ## C3: pitch encoder -/

/-- C3: `midi_to_abc` is total and deterministic; writing
`pc = p mod 12` and `octave = p div 12 − 1`, the result is the accidental
marker (present iff the pitch class is chromatic) followed by: the
uppercase letter for octave 4; the lowercase letter plus one apostrophe per
octave beyond 5 for octaves ≥ 5; the uppercase letter plus one comma per
octave below 4 otherwise. -/
theorem c3_pitch_encoder (p : ℤ) :
    (p.ediv 12 - 1 = 4 →
      midi_to_abc p = accMark (p.emod 12).toNat ++
        String.mk [baseLetter (p.emod 12).toNat]) ∧
    (5 ≤ p.ediv 12 - 1 →
      midi_to_abc p = accMark (p.emod 12).toNat ++
        String.mk ((baseLetter (p.emod 12).toNat).toLower ::
          List.replicate (p.ediv 12 - 1 - 5).toNat apoChar)) ∧
    (p.ediv 12 - 1 < 4 →
      midi_to_abc p = accMark (p.emod 12).toNat ++
        String.mk (baseLetter (p.emod 12).toNat ::
          List.replicate (4 - (p.ediv 12 - 1)).toNat ',')) := by
  have hr0 : 0 ≤ p.emod 12 := Int.emod_nonneg p (by norm_num)
  have hr12 : p.emod 12 < 12 := Int.emod_lt_of_pos p (by norm_num)
  have hn12 : (p.emod 12).toNat < 12 := by omega
  refine ⟨?_, ?_, ?_⟩
  · intro hoct
    simp only [midi_to_abc]
    rw [if_pos (show (4 : ℤ) ≤ p.ediv 12 - 1 by omega),
      if_pos (show p.ediv 12 - 1 = 4 from hoct),
      if_neg (show ¬(5 : ℤ) < p.ediv 12 - 1 by omega)]
    set n := (p.emod 12).toNat with hn
    interval_cases n <;> rfl
  · intro hoct
    simp only [midi_to_abc]
    rw [if_pos (show (4 : ℤ) ≤ p.ediv 12 - 1 by omega),
      if_neg (show ¬(p.ediv 12 - 1 = 4) by omega)]
    by_cases h5 : (5 : ℤ) < p.ediv 12 - 1
    · rw [if_pos h5]
      set n := (p.emod 12).toNat with hn
      interval_cases n <;> rfl
    · have h5' : p.ediv 12 - 1 = 5 := by omega
      rw [if_neg h5, h5']
      norm_num
      set n := (p.emod 12).toNat with hn
      interval_cases n <;> rfl
  · intro hoct
    simp only [midi_to_abc]
    rw [if_neg (show ¬(4 : ℤ) ≤ p.ediv 12 - 1 by omega)]
    set n := (p.emod 12).toNat with hn
    interval_cases n <;> rfl

/-! ## C2: chord recognizer -/

/-- Two sorted duplicate-free lists are equal iff their finsets are. -/
theorem ivs_eq_iff {l tgt : List ℤ} (hs : l.Sorted (· ≤ ·)) (hn : l.Nodup)
    (hts : tgt.Sorted (· ≤ ·)) (htn : tgt.Nodup) :
    (l.toFinset = tgt.toFinset) = (l = tgt) :=
  propext ⟨fun h =>
    List.eq_of_perm_of_sorted (List.perm_of_nodup_nodup_toFinset_eq hn htn h) hs hts,
    fun h => by rw [h]⟩

theorem list_toFinset_map (l : List ℤ) (f : ℤ → ℤ) :
    (l.map f).toFinset = l.toFinset.image f := by
  ext x
  simp

/-- The source recognizer agrees with the claim-side recognizer on every
pitch list. -/
theorem identify_chord_eq_claim (ps : List ℤ) :
    identify_chord ps = identify_chord_claim ps := by
  cases hpcs : ((ps.map (fun p => p.emod 12)).dedup.insertionSort (· ≤ ·)) with
  | nil =>
    have hperm := List.perm_insertionSort (· ≤ ·) ((ps.map (fun p => p.emod 12)).dedup)
    rw [hpcs] at hperm
    have hdedup : (ps.map (fun p => p.emod 12)).dedup = [] := hperm.symm.eq_nil
    have hM : ps.map (fun p => p.emod 12) = [] := (List.dedup_eq_nil _).mp hdedup
    simp only [identify_chord, identify_chord_claim, hpcs, hM]
    simp
  | cons root rest =>
    have hperm : List.Perm (root :: rest) ((ps.map (fun p => p.emod 12)).dedup) := by
      have h := List.perm_insertionSort (· ≤ ·) ((ps.map (fun p => p.emod 12)).dedup)
      rwa [hpcs] at h
    have hsorted : (root :: rest).Sorted (· ≤ ·) := by
      have h := List.sorted_insertionSort (· ≤ ·) ((ps.map (fun p => p.emod 12)).dedup)
      rwa [hpcs] at h
    have hnodup : (root :: rest).Nodup :=
      (List.nodup_dedup _).perm hperm.symm
    have htf : (root :: rest).toFinset = (ps.map (fun p => p.emod 12)).toFinset := by
      refine (List.toFinset_eq_of_perm _ _ hperm).trans ?_
      exact List.toFinset.ext (fun x => List.mem_dedup)
    have hbound : ∀ x ∈ root :: rest, 0 ≤ x ∧ x < 12 := by
      intro x hx
      have hx' : x ∈ (ps.map (fun p => p.emod 12)).dedup := hperm.mem_iff.mp hx
      rw [List.mem_dedup] at hx'
      obtain ⟨p, _, rfl⟩ := List.mem_map.mp hx'
      exact ⟨Int.emod_nonneg p (by norm_num), Int.emod_lt_of_pos p (by norm_num)⟩
    have hrootle : ∀ x ∈ root :: rest, root ≤ x := by
      intro x hx
      rcases List.mem_cons.mp hx with rfl | hx'
      · exact le_refl x
      · exact (List.sorted_cons.mp hsorted).1 x hx'
    have hCne : ((ps.map (fun p => p.emod 12)).toFinset : Finset ℤ).Nonempty :=
      ⟨root, htf ▸ List.mem_toFinset.mpr (List.mem_cons_self root rest)⟩
    have hmin : (ps.map (fun p => p.emod 12)).toFinset.min' hCne = root := by
      apply le_antisymm
      · exact Finset.min'_le _ root (htf ▸ List.mem_toFinset.mpr (List.mem_cons_self root rest))
      · have hmem : (ps.map (fun p => p.emod 12)).toFinset.min' hCne ∈ root :: rest := by
          rw [← List.mem_toFinset, htf]
          exact Finset.min'_mem _ _
        exact hrootle _ hmem
    have hgpt : ∀ a ∈ root :: rest, (a - root).emod 12 = a - root := by
      intro a ha
      refine Int.emod_eq_of_lt ?_ ?_
      · have := hrootle a ha; omega
      · have h1 := (hbound a ha).2
        have h2 := (hbound root (List.mem_cons_self _ _)).1
        omega
    have hgmap : (root :: rest).map (fun pc => (pc - root).emod 12) =
        (root :: rest).map (fun pc => pc - root) :=
      List.map_congr_left hgpt
    have hmapsorted : ((root :: rest).map (fun pc => pc - root)).Sorted (· ≤ ·) := by
      rw [List.Sorted, List.pairwise_map]
      exact hsorted.imp (fun h => sub_le_sub_right h root)
    have hrel : ((root :: rest).map (fun pc => (pc - root).emod 12)).insertionSort (· ≤ ·) =
        0 :: rest.map (fun pc => pc - root) := by
      rw [hgmap, List.Sorted.insertionSort_eq hmapsorted]
      simp
    have hirest_sorted : (rest.map (fun pc => pc - root)).Sorted (· ≤ ·) := by
      have h := hmapsorted
      rw [List.map_cons] at h
      exact (List.sorted_cons.mp h).2
    have hirest_nodup : (rest.map (fun pc => pc - root)).Nodup := by
      refine List.Nodup.map ?_ (List.nodup_cons.mp hnodup).2
      intro a b hab
      have hab' : a - root = b - root := hab
      omega
    have hcard : (ps.map (fun p => p.emod 12)).toFinset.card = rest.length + 1 := by
      rw [← htf, List.toFinset_card_of_nodup hnodup, List.length_cons]
    have herase : (ps.map (fun p => p.emod 12)).toFinset.erase root = rest.toFinset := by
      rw [← htf, List.toFinset_cons, Finset.erase_insert]
      rw [List.mem_toFinset]
      exact (List.nodup_cons.mp hnodup).1
    have hivs : ((ps.map (fun p => p.emod 12)).toFinset.erase root).image
        (fun c => (c - root).emod 12) = (rest.map (fun pc => pc - root)).toFinset := by
      rw [herase, list_toFinset_map]
      refine Finset.image_congr ?_
      intro a ha
      rw [Finset.mem_coe, List.mem_toFinset] at ha
      exact hgpt a (List.mem_cons_of_mem root ha)
    simp only [identify_chord, identify_chord_claim, hpcs, hrel, dif_pos hCne, hmin,
      hcard, hivs, List.drop_succ_cons, List.drop_zero, List.getD_cons_succ,
      List.getD_cons_zero, List.length_cons, List.length_map]
    by_cases h2 : rest.length + 1 = 2
    · rw [if_pos h2, if_pos h2]
      obtain ⟨a, ha⟩ : ∃ a, rest.map (fun pc => pc - root) = [a] :=
        List.length_eq_one.mp (by rw [List.length_map]; omega)
      rw [ha]
      have e7 : (([a] : List ℤ).toFinset = ({7} : Finset ℤ)) = (([a] : List ℤ) = [7]) := by
        rw [show ({7} : Finset ℤ) = ([7] : List ℤ).toFinset by simp]
        exact ivs_eq_iff (by simp) (by simp) (by simp) (by simp)
      simp only [List.getD_cons_zero, e7, List.cons.injEq, and_true]
    · rw [if_neg h2, if_neg h2]
      by_cases h3 : rest.length + 1 = 3
      · rw [if_pos h3, if_pos h3]
        have etab : ∀ tgt : List ℤ, tgt.Sorted (· ≤ ·) → tgt.Nodup →
            ((rest.map (fun pc => pc - root)).toFinset = tgt.toFinset) =
              ((rest.map (fun pc => pc - root)) = tgt) :=
          fun tgt hts htn => ivs_eq_iff hirest_sorted hirest_nodup hts htn
        rw [show ({4, 7} : Finset ℤ) = ([4, 7] : List ℤ).toFinset by simp,
          show ({3, 7} : Finset ℤ) = ([3, 7] : List ℤ).toFinset by simp,
          show ({3, 6} : Finset ℤ) = ([3, 6] : List ℤ).toFinset by simp,
          show ({4, 8} : Finset ℤ) = ([4, 8] : List ℤ).toFinset by simp,
          show ({2, 7} : Finset ℤ) = ([2, 7] : List ℤ).toFinset by simp,
          show ({5, 7} : Finset ℤ) = ([5, 7] : List ℤ).toFinset by simp]
        simp only [etab [4, 7] (by decide) (by decide), etab [3, 7] (by decide) (by decide),
          etab [3, 6] (by decide) (by decide), etab [4, 8] (by decide) (by decide),
          etab [2, 7] (by decide) (by decide), etab [5, 7] (by decide) (by decide)]
      · rw [if_neg h3, if_neg h3]
        by_cases h4 : rest.length + 1 = 4
        · rw [if_pos h4, if_pos h4]
          have etab : ∀ tgt : List ℤ, tgt.Sorted (· ≤ ·) → tgt.Nodup →
              ((rest.map (fun pc => pc - root)).toFinset = tgt.toFinset) =
                ((rest.map (fun pc => pc - root)) = tgt) :=
            fun tgt hts htn => ivs_eq_iff hirest_sorted hirest_nodup hts htn
          rw [show ({4, 7, 10} : Finset ℤ) = ([4, 7, 10] : List ℤ).toFinset by simp,
            show ({3, 7, 10} : Finset ℤ) = ([3, 7, 10] : List ℤ).toFinset by simp,
            show ({4, 7, 11} : Finset ℤ) = ([4, 7, 11] : List ℤ).toFinset by simp,
            show ({3, 6, 10} : Finset ℤ) = ([3, 6, 10] : List ℤ).toFinset by simp,
            show ({3, 6, 9} : Finset ℤ) = ([3, 6, 9] : List ℤ).toFinset by simp,
            show ({4, 7, 9} : Finset ℤ) = ([4, 7, 9] : List ℤ).toFinset by simp,
            show ({3, 7, 9} : Finset ℤ) = ([3, 7, 9] : List ℤ).toFinset by simp]
          simp only [etab [4, 7, 10] (by decide) (by decide),
            etab [3, 7, 10] (by decide) (by decide), etab [4, 7, 11] (by decide) (by decide),
            etab [3, 6, 10] (by decide) (by decide), etab [3, 6, 9] (by decide) (by decide),
            etab [4, 7, 9] (by decide) (by decide), etab [3, 7, 9] (by decide) (by decide)]
        · rw [if_neg h4, if_neg h4]

/-- C2: the chord recognizer agrees everywhere with the claim's
description (unique pitch classes, lowest class as root, interval sets
{7} / {4,7} / {3,7} / {3,6} / {4,8} / {2,7} / {5,7} /
{4,7,10} / {3,7,10} / {4,7,11} / {3,6,10} / {3,6,9} / {4,7,9} / {3,7,9}
by cardinality, no label otherwise), and produces the quoted examples. -/
theorem c2_chord_recognizer :
    (∀ ps : List ℤ, identify_chord ps = identify_chord_claim ps) ∧
    identify_chord [60, 64, 67] = some "Cmaj" ∧
    identify_chord [60, 63, 67] = some "Cmin" ∧
    identify_chord [60, 67] = some "C5" ∧
    identify_chord [60, 61, 67] = Option.none :=
  ⟨identify_chord_eq_claim, by decide, by decide, by decide, by decide⟩

/-- C3 witness: `c3_pitch_encoder` applied at pitches 61 (octave 4,
chromatic), 97 (octave 7) and 36 (octave 1). -/
theorem c3_pitch_encoder_witness :
    ((61 : ℤ).ediv 12 - 1 = 4 ∧ midi_to_abc 61 = "^C") ∧
    (5 ≤ (97 : ℤ).ediv 12 - 1 ∧
      midi_to_abc 97 = String.mk ['^', 'c', apoChar, apoChar]) ∧
    ((36 : ℤ).ediv 12 - 1 < 4 ∧ midi_to_abc 36 = "C,,") := by
  refine ⟨⟨by decide, ?_⟩, ⟨by decide, ?_⟩, ⟨by decide, ?_⟩⟩
  · rw [(c3_pitch_encoder 61).1 (by decide)]; decide
  · rw [(c3_pitch_encoder 97).2.1 (by decide)]; decide
  · rw [(c3_pitch_encoder 36).2.2 (by decide)]; decide

end MusicChat
